import Mathlib

/-!
Shallow embedding of the multipurpose-chatbot intent resolution engine and
context store, translated from the Python sources:

* `src/backend/models/intent_classifier.py` (`IntentClassifier`)
* `src/backend/models/context_manager.py` (`ContextManager`)
* `src/backend/chatbot_core.py` (`TrainingDataManager`)
* `src/backend/app.py` (`SimpleTextPreprocessor`)

Strings are modelled as Lean `String`s; Python character-level operations
(`str.lower`, `str.find`, the `in` substring test, `str.split`,
the regex substitution that deletes non-word, non-space characters) are modelled on the underlying character
lists.  Timestamps are seconds as `Nat`; floats are modelled as `ℚ`.
The TF-IDF vectorizer and cosine-similarity computation live in scikit-learn
(an external library); the classifier functions therefore take the computed
similarity row as an explicit argument, exactly as `predict` consumes
`cosine_similarity(text_vector, self.X)[0]`.
-/

namespace Chatbot

/-- Python `str.lower()` restricted to the ASCII case mapping. -/
def lowerStr (s : String) : String :=
  String.mk (s.toList.map Char.toLower)

/-- Index of the first occurrence of `p` as a contiguous sublist of `l`
(Python `str.find`, `none` when absent). -/
def findSub : List Char → List Char → Option Nat
  | [], p => if p = [] then some 0 else none
  | c :: t, p =>
    if List.isPrefixOf p (c :: t) then some 0
    else (findSub t p).map (· + 1)

/-- Python `s.find(pat)` on character indices, `none` for not-found. -/
def strFind (s pat : String) : Option Nat :=
  findSub s.toList pat.toList

/-- Python `pat in s` substring test. -/
def strContains (s pat : String) : Bool :=
  (strFind s pat).isSome

/-- Python `str` whitespace characters (`\s`): space, tab, newline,
carriage return, vertical tab, form feed. -/
def pyIsSpace (c : Char) : Bool :=
  c = ' ' || c = '\t' || c = '\n' || c = '\r' || c = '\x0b' || c = '\x0c'

/-- ASCII word characters, Python regex `\w`: alphanumerics and underscore. -/
def pyIsWordChar (c : Char) : Bool :=
  c.isAlphanum || c = '_'

/-- Helper for Python `str.split()` with no argument: split on runs of
whitespace, returning no empty fields.  `acc` holds the current word
reversed. -/
def splitWsAux : List Char → List Char → List (List Char)
  | [], acc => if acc = [] then [] else [acc.reverse]
  | c :: t, acc =>
    if pyIsSpace c then
      if acc = [] then splitWsAux t []
      else acc.reverse :: splitWsAux t []
    else splitWsAux t (c :: acc)

/-- Python `s.split()` (whitespace split, empty fields dropped). -/
def pySplit (s : String) : List String :=
  (splitWsAux s.toList []).map String.mk

/-- Python `s.strip()`: drop leading and trailing whitespace. -/
def pyStrip (s : String) : String :=
  String.mk (((s.toList.dropWhile (fun c => pyIsSpace c)).reverse.dropWhile
    (fun c => pyIsSpace c)).reverse)

/-- Binary `min` of Python, on rationals. -/
def pyMin (a b : ℚ) : ℚ :=
  if a ≤ b then a else b

/-- Python `l[-n:]`: the last `n` elements of a list. -/
def lastN (n : Nat) (l : List α) : List α :=
  l.drop (l.length - n)

/-! ## Data model: turns and user contexts (`context_manager.py`) -/

/-- The per-turn sentiment/topic signals kept in `context_variables`
(`_update_context_variables` only ever writes these three keys). -/
structure ContextVars where
  hasIssues : Bool := false
  discussingOrders : Bool := false
  lastSentiment : Option String := none
deriving Repr, DecidableEq

/-- One conversation exchange appended by `update_context`. -/
structure Turn where
  timestamp : Nat
  userInput : String
  botResponse : String
  intent : String
  application : String
deriving Repr, DecidableEq

/-- The per-user context dictionary created by `_create_new_context`. -/
structure UserContext where
  userId : String
  history : List Turn
  currentApplication : String
  userName : Option String
  userPreferences : List (String × String)
  sessionStart : Nat
  lastActivity : Nat
  messageCount : Nat
  contextVariables : ContextVars
deriving Repr, DecidableEq

/-- Embeds `ContextManager._create_new_context`. -/
def createNewContext (uid : String) (now : Nat) : UserContext :=
  { userId := uid
    history := []
    currentApplication := "customer_support"
    userName := none
    userPreferences := []
    sessionStart := now
    lastActivity := now
    messageCount := 0
    contextVariables := {} }

/-- Append to a `collections.deque` with `maxlen`: the oldest entries
beyond the capacity are discarded from the front. -/
def dequeAppend (maxlen : Nat) (h : List Turn) (t : Turn) : List Turn :=
  (h ++ [t]).drop (h.length + 1 - maxlen)

/-- The ordered name-introduction phrases of
`ContextManager._extract_user_name`. -/
def namePatterns : List String :=
  ["my name is", "i\x27m called", "i am", "call me", "you can call me"]

/-- Embeds `ContextManager._extract_user_name`: try the phrases in list order
against the lowercased input; at the first phrase present, take the first
whitespace-delimited token after the first occurrence of the phrase (from the
original, non-lowercased input) and store it when its length exceeds 1.
The previously stored name is kept in every other case. -/
def extractUserName (userName : Option String) (userInput : String) :
    Option String :=
  let lower := lowerStr userInput
  match namePatterns.find? (fun p => strContains lower p) with
  | none => userName
  | some p =>
    let nameStart := (strFind lower p).getD 0 + p.length
    let potentialName := pyStrip (String.mk (userInput.toList.drop nameStart))
    match (pySplit potentialName).head? with
    | none => userName
    | some name => if name.length > 1 then some name else userName

/-- Issue keywords of `_update_context_variables`. -/
def issueWords : List String := ["problem", "issue", "error", "not working"]

/-- Positive sentiment keywords of `_update_context_variables`. -/
def positiveWords : List String :=
  ["great", "good", "excellent", "thanks", "thank you", "awesome"]

/-- Negative sentiment keywords of `_update_context_variables`. -/
def negativeWords : List String :=
  ["bad", "terrible", "awful", "horrible", "disappointed"]

/-- Embeds `ContextManager._update_context_variables`: flag issues and order talk,
then run the positive-word loop followed by the negative-word loop; each
loop stores its sentiment at the first keyword found in the lowercased
input (so a negative hit overwrites a positive one from the same turn). -/
def updateContextVariables (cv : ContextVars) (userInput : String) :
    ContextVars :=
  let lower := lowerStr userInput
  let cv1 :=
    if issueWords.any (fun w => strContains lower w) then
      { cv with hasIssues := true }
    else cv
  let cv2 :=
    if strContains lower "order" then
      { cv1 with discussingOrders := true }
    else cv1
  let cv3 :=
    if positiveWords.any (fun w => strContains lower w) then
      { cv2 with lastSentiment := some "positive" }
    else cv2
  if negativeWords.any (fun w => strContains lower w) then
    { cv3 with lastSentiment := some "negative" }
  else cv3

/-- The context mutation performed by `ContextManager.update_context` on one
context of one user: append the new turn to the bounded history, set the current
application, bump the message count, re-run name extraction and the
context-variable derivation (`get_context` has already touched
`last_activity`). -/
def updateContextTurn (maxLen : Nat) (ctx : UserContext) (now : Nat)
    (userInput botResponse intent application : String) : UserContext :=
  let t : Turn :=
    { timestamp := now, userInput := userInput, botResponse := botResponse
      intent := intent, application := application }
  { ctx with
      history := dequeAppend maxLen ctx.history t
      currentApplication := application
      messageCount := ctx.messageCount + 1
      userName := extractUserName ctx.userName userInput
      contextVariables := updateContextVariables ctx.contextVariables userInput
      lastActivity := now }

/-! ## Context store (`ContextManager` session map) -/

/-- The `ContextManager` fields: capacity, timeout and the user-id keyed
session dictionary (keys unique, insertion-ordered, as a Python dict). -/
structure ManagerState where
  maxContextLength : Nat
  sessionTimeout : Nat
  userContexts : List (String × UserContext)
deriving Repr, DecidableEq

/-- Dictionary lookup on the session map. -/
def lookupCtx (l : List (String × UserContext)) (uid : String) :
    Option UserContext :=
  (l.find? (fun e => e.1 = uid)).map (fun e => e.2)

/-- Dictionary store of an existing key on the session map. -/
def replaceCtx (l : List (String × UserContext)) (uid : String)
    (c : UserContext) : List (String × UserContext) :=
  l.map (fun e => if e.1 = uid then (uid, c) else e)

/-- Embeds `ContextManager._cleanup_expired_sessions`: delete every context whose
last activity lies strictly more than `session_timeout` seconds in the
past. -/
def cleanupExpiredSessions (st : ManagerState) (now : Nat) : ManagerState :=
  { st with
      userContexts :=
        st.userContexts.filter
          (fun e => ¬ (now - e.2.lastActivity > st.sessionTimeout)) }

/-- Embeds `ContextManager.get_context`: sweep expired sessions, then return the
context of the user — freshly created when absent, with `last_activity` touched
when present — together with the updated store. -/
def getContext (st : ManagerState) (uid : String) (now : Nat) :
    UserContext × ManagerState :=
  let st1 := cleanupExpiredSessions st now
  match lookupCtx st1.userContexts uid with
  | none =>
    let c := createNewContext uid now
    (c, { st1 with userContexts := st1.userContexts ++ [(uid, c)] })
  | some c =>
    let c1 := { c with lastActivity := now }
    (c1, { st1 with userContexts := replaceCtx st1.userContexts uid c1 })

/-- One entry of `ContextManager.get_all_active_sessions`. -/
structure SessionSummary where
  userId : String
  userName : Option String
  currentApplication : String
  messageCount : Nat
  sessionDuration : Nat
  lastActivity : Nat
deriving Repr, DecidableEq

/-- Embeds `ContextManager.get_all_active_sessions`: sweep expired sessions, then
summarise the remaining ones. -/
def getAllActiveSessions (st : ManagerState) (now : Nat) :
    List SessionSummary :=
  (cleanupExpiredSessions st now).userContexts.map
    (fun e =>
      { userId := e.1
        userName := e.2.userName
        currentApplication := e.2.currentApplication
        messageCount := e.2.messageCount
        sessionDuration := now - e.2.sessionStart
        lastActivity := e.2.lastActivity })

/-! ## Intent classifier (`intent_classifier.py`) -/

/-- One entry of `IntentClassifier.tags`: the owning application and the
intent tag of a pattern row. -/
structure TagInfo where
  application : String
  tag : String
deriving Repr, DecidableEq

/-- Arrays of one application in the training-data JSON. -/
structure AppData where
  patterns : List String
  responses : List String
  tags : List String
deriving Repr, DecidableEq

/-- The mutable classifier fields relevant to `train`/`predict`. -/
structure ClassifierState where
  trained : Bool
  patterns : List String
  tags : List TagInfo
  minConfidence : ℚ
deriving Repr, DecidableEq

/-- Embeds `IntentClassifier.__init__`. -/
def initialClassifier (mc : ℚ) : ClassifierState :=
  { trained := false, patterns := [], tags := [], minConfidence := mc }

/-- The pattern/tag collection loop of `IntentClassifier.train`:
applications whose `patterns` and `tags` arrays differ in length are
skipped (`continue`); the others contribute their patterns and
per-pattern `{application, tag}` records, in corpus order. -/
def collectTrainingData (apps : List (String × AppData)) :
    List String × List TagInfo :=
  apps.foldl
    (fun acc e =>
      if e.2.patterns.length = e.2.tags.length then
        (acc.1 ++ e.2.patterns,
         acc.2 ++ e.2.tags.map (fun t => ⟨e.1, t⟩))
      else acc)
    ([], [])

/-- Embeds `IntentClassifier.train`: collect patterns and tags, fail (returning the
state unchanged) when no patterns were found, otherwise store them and mark
the model trained.  The `fit_transform` call on the external vectorizer is
modelled as succeeding. -/
def train (st : ClassifierState) (apps : List (String × AppData)) :
    ClassifierState × Bool :=
  let collected := collectTrainingData apps
  if collected.1.isEmpty then (st, false)
  else
    ({ st with
        trained := true
        patterns := collected.1
        tags := collected.2 }, true)

/-- Maximum of a similarity row (`np.max`; rows are nonempty in `predict`). -/
def listMax : List ℚ → ℚ
  | [] => 0
  | [x] => x
  | x :: y :: t => max x (listMax (y :: t))

/-- Embeds `np.argmax`: index of the first element attaining the maximum. -/
def argmaxIdx (l : List ℚ) : Nat :=
  l.findIdx (fun x => x = listMax l)

/-- Embeds `IntentClassifier._apply_context_scoring`: multiply by 1.1 (capped at
1.0) when the owning application of the matched pattern equals the requested one, then
by 1.05 (uncapped) when the matched tag occurs among the intents of the
last 3 turns of the conversation history of the supplied context. -/
def applyContextScoring (confidence : ℚ) (tagInfo : TagInfo)
    (application : String) (context : Option UserContext) : ℚ :=
  let adjusted :=
    if tagInfo.application = application then pyMin (confidence * (11/10)) 1
    else confidence
  match context with
  | none => adjusted
  | some ctx =>
    if ctx.history ≠ [] ∧
        tagInfo.tag ∈ lastN 3 (ctx.history.map Turn.intent) then
      adjusted * (21/20)
    else adjusted

/-- Embeds `IntentClassifier.predict`, taking the externally computed cosine
similarity row `sims` (one entry per pattern row).  An untrained model and
the exception paths (argmax of an empty row, a tag index out of range)
yield `("unknown", 0)`; a best similarity below `min_confidence` yields
`("unknown", similarity)`; otherwise the matched tag with the
context-adjusted confidence. -/
def predict (st : ClassifierState) (sims : List ℚ) (application : String)
    (context : Option UserContext) : String × ℚ :=
  if st.trained = false then ("unknown", 0)
  else
    match sims with
    | [] => ("unknown", 0)
    | _ :: _ =>
      let idx := argmaxIdx sims
      let confidence := sims.getD idx 0
      if st.minConfidence ≤ confidence then
        match st.tags[idx]? with
        | some ti => (ti.tag, applyContextScoring confidence ti application context)
        | none => ("unknown", 0)
      else ("unknown", confidence)

/-! ## Training data manager (`chatbot_core.py`) -/

/-- The empty per-application record created by `add_example` for an
unknown application. -/
def emptyAppData : AppData :=
  { patterns := [], responses := [], tags := [] }

/-- Dictionary lookup on the `applications` map. -/
def lookupApp (l : List (String × AppData)) (k : String) : Option AppData :=
  (l.find? (fun e => e.1 = k)).map (fun e => e.2)

/-- Dictionary store of an existing key on the `applications` map. -/
def setApp (l : List (String × AppData)) (k : String) (v : AppData) :
    List (String × AppData) :=
  l.map (fun e => if e.1 = k then (k, v) else e)

/-- Embeds `TrainingDataManager.add_example`: create the application when unknown,
append the pattern, response and tag to its arrays, then attempt to persist
(`save_data`, external file I/O modelled by the `saveOk` argument) and
return its outcome.  The in-memory data keeps the appended example whether
or not the save succeeded. -/
def addExample (data : List (String × AppData))
    (application pat resp tag : String) (saveOk : Bool) :
    List (String × AppData) × Bool :=
  let data1 :=
    match lookupApp data application with
    | none => data ++ [(application, emptyAppData)]
    | some _ => data
  let cur := (lookupApp data1 application).getD emptyAppData
  let updated : AppData :=
    { patterns := cur.patterns ++ [pat]
      responses := cur.responses ++ [resp]
      tags := cur.tags ++ [tag] }
  (setApp data1 application updated, saveOk)

/-! ## Text normalizer (`app.py`, `SimpleTextPreprocessor`) -/

/-- The fixed inflection-to-lemma table of `preprocess_text`. -/
def lemmatizationMap : List (String × String) :=
  [("are", "be"), ("am", "be"), ("is", "be"), ("was", "be"), ("were", "be"),
   ("running", "run"), ("ran", "run"), ("runs", "run"),
   ("going", "go"), ("went", "go"), ("goes", "go"),
   ("having", "have"), ("had", "have"), ("has", "have"),
   ("doing", "do"), ("did", "do"), ("does", "do"),
   ("saying", "say"), ("said", "say"), ("says", "say"),
   ("orders", "order"), ("ordered", "order"),
   ("returns", "return"), ("returned", "return"),
   ("problems", "problem"), ("issues", "issue")]

/-- Embeds `SimpleTextPreprocessor.preprocess_text`: empty input stays empty;
otherwise lowercase, delete every character that is neither a word
character (`\w`, underscore included) nor whitespace, split on whitespace,
apply the lemma table wordwise and rejoin with single spaces. -/
def preprocessText (text : String) : String :=
  if text = "" then ""
  else
    let lowered := lowerStr text
    let cleaned := lowered.toList.filter
      (fun c => pyIsWordChar c || pyIsSpace c)
    let words := (splitWsAux cleaned []).map String.mk
    let processed := words.map
      (fun w => ((lemmatizationMap.find? (fun e => e.1 = w)).map
        (fun e => e.2)).getD w)
    String.intercalate " " processed

/-- Character set `string.punctuation` of Python. -/
def pythonPunctuation : List Char :=
  "!\"#$%&\x27()*+,-./:;<=>?@[\\]^_\x60\x7b|\x7d~".toList

/-- Membership in `string.punctuation`. -/
def isPunct (c : Char) : Bool :=
  pythonPunctuation.contains c

/-! ## Theorems -/

/-- The condition of the recent-intent boost in `_apply_context_scoring`: a
context was supplied, its history is nonempty, and the matched tag occurs
among the intents of the last 3 turns. -/
def recencyBoostApplies (tagInfo : TagInfo) (context : Option UserContext) :
    Prop :=
  ∃ c, context = some c ∧ c.history ≠ [] ∧
    tagInfo.tag ∈ lastN 3 (c.history.map Turn.intent)

lemma conf_le_pyMinBoost {conf : ℚ} (h0 : 0 ≤ conf) (h1 : conf ≤ 1) :
    conf ≤ pyMin (conf * (11/10)) 1 := by
  unfold pyMin
  split <;> nlinarith

lemma pyMinBoost_le_one (conf : ℚ) : pyMin (conf * (11/10)) 1 ≤ 1 := by
  unfold pyMin
  split <;> linarith

/-- The concrete user context of the C1 counterexample: one recorded turn
with intent `"t"`. -/
def c1ctx : UserContext :=
  { createNewContext "u" 0 with
      history := [⟨0, "", "", "t", "a"⟩] }

/-- Claim C1 as stated is false: for raw similarity 1 (which lies in
`[0,1]`), a matched pattern owned by the requested application, and a
context whose recent history contains the matched tag, both boosts fire and
the adjusted confidence is `1 * 1.1` capped to `1`, then times `1.05`,
namely `21/20 > 1` — the adjusted confidence does exceed `1.0`. -/
theorem c1_counterexample :
    (0:ℚ) ≤ 1 ∧ (1:ℚ) ≤ 1 ∧
    1 < applyContextScoring 1 ⟨"a", "t"⟩ "a" (some c1ctx) := by
  refine ⟨by norm_num, by norm_num, ?_⟩
  norm_num [applyContextScoring, pyMin, lastN, c1ctx, createNewContext]

/-- Claim C1 (amended): for raw similarity in `[0,1]`, the adjusted
confidence of `_apply_context_scoring` is at least the raw similarity
whenever the in-application boost or the recent-intent boost applies,
equals the raw similarity when neither applies, and never exceeds `1.05`
(`21/20`); it stays capped at `1.0` only as long as the recent-intent boost
does not apply, because the `1.05` multiplication is not followed by a
cap. -/
theorem c1_adjusted_confidence_bounds (conf : ℚ) (ti : TagInfo)
    (app : String) (context : Option UserContext)
    (h0 : 0 ≤ conf) (h1 : conf ≤ 1) :
    (ti.application = app ∨ recencyBoostApplies ti context →
      conf ≤ applyContextScoring conf ti app context) ∧
    (ti.application ≠ app → ¬ recencyBoostApplies ti context →
      applyContextScoring conf ti app context = conf) ∧
    applyContextScoring conf ti app context ≤ 21/20 ∧
    (¬ recencyBoostApplies ti context →
      applyContextScoring conf ti app context ≤ 1) := by
  have key :
      conf ≤ applyContextScoring conf ti app context ∧
      (ti.application ≠ app → ¬ recencyBoostApplies ti context →
        applyContextScoring conf ti app context = conf) ∧
      applyContextScoring conf ti app context ≤ 21/20 ∧
      (¬ recencyBoostApplies ti context →
        applyContextScoring conf ti app context ≤ 1) := by
    unfold applyContextScoring
    set a : ℚ :=
      if ti.application = app then pyMin (conf * (11/10)) 1 else conf with ha
    have hconf_a : conf ≤ a := by
      rw [ha]
      split
      · exact conf_le_pyMinBoost h0 h1
      · exact le_refl conf
    have ha_one : a ≤ 1 := by
      rw [ha]
      split
      · exact pyMinBoost_le_one conf
      · exact h1
    have ha_nonneg : 0 ≤ a := le_trans h0 hconf_a
    have ha_eq : ti.application ≠ app → a = conf := by
      intro hne
      rw [ha, if_neg hne]
    cases context with
    | none =>
      dsimp only
      refine ⟨hconf_a, fun hne _ => ha_eq hne, by linarith, fun _ => ha_one⟩
    | some ctx =>
      dsimp only
      by_cases hrec : ctx.history ≠ [] ∧
          ti.tag ∈ lastN 3 (ctx.history.map Turn.intent)
      · have hrb : recencyBoostApplies ti (some ctx) :=
          ⟨ctx, rfl, hrec.1, hrec.2⟩
        rw [if_pos hrec]
        refine ⟨by nlinarith, fun _ hn => absurd hrb hn, by nlinarith,
          fun hn => absurd hrb hn⟩
      · have hrb : ¬ recencyBoostApplies ti (some ctx) := by
          rintro ⟨c, hc, h₁, h₂⟩
          cases hc
          exact hrec ⟨h₁, h₂⟩
        rw [if_neg hrec]
        refine ⟨hconf_a, fun hne _ => ha_eq hne, by linarith, fun _ => ha_one⟩
  exact ⟨fun _ => key.1, key.2.1, key.2.2.1, key.2.2.2⟩

/-- Witness for C1 (amended) at raw similarity `1/2` with the
in-application boost firing. -/
theorem c1_witness :
    (1:ℚ)/2 ≤ applyContextScoring (1/2) ⟨"a", "t"⟩ "a" none :=
  (c1_adjusted_confidence_bounds (1/2) ⟨"a", "t"⟩ "a" none
    (by norm_num) (by norm_num)).1 (Or.inl rfl)

lemma listMax_mem : ∀ (l : List ℚ), l ≠ [] → listMax l ∈ l
  | [], h => absurd rfl h
  | [x], _ => by simp [listMax]
  | x :: y :: t, _ => by
    rw [listMax]
    rcases max_choice x (listMax (y :: t)) with h | h <;> rw [h]
    · exact List.mem_cons_self _ _
    · exact List.mem_cons_of_mem _ (listMax_mem (y :: t) (by simp))

lemma getD_argmaxIdx (l : List ℚ) (h : l ≠ []) :
    l.getD (argmaxIdx l) 0 = listMax l := by
  have hex : ∃ x ∈ l, (fun x => decide (x = listMax l)) x =
      true := ⟨listMax l, listMax_mem l h, by simp⟩
  have hlt : l.findIdx (fun x => decide (x = listMax l)) < l.length :=
    List.findIdx_lt_length_of_exists hex
  have hp := List.findIdx_getElem (w := hlt)
  simp only [decide_eq_true_eq] at hp
  unfold argmaxIdx
  rw [List.getD_eq_getElem?_getD, List.getElem?_eq_getElem hlt]
  exact hp

/-- Claim C2: on a trained classifier, when the best raw cosine similarity
of the query against the pattern rows lies strictly below the configured
minimum-confidence threshold, `predict` returns the tag `"unknown"`
together with that raw similarity itself as the confidence. -/
theorem c2_below_threshold_unknown (st : ClassifierState) (sims : List ℚ)
    (app : String) (context : Option UserContext)
    (ht : st.trained = true) (hne : sims ≠ [])
    (hlt : listMax sims < st.minConfidence) :
    predict st sims app context = ("unknown", listMax sims) := by
  unfold predict
  rw [ht]
  cases sims with
  | nil => exact absurd rfl hne
  | cons a l =>
    have hc : (a :: l).getD (argmaxIdx (a :: l)) 0 = listMax (a :: l) :=
      getD_argmaxIdx _ (by simp)
    simp only [Bool.true_eq_false, if_false, hc,
      if_neg (not_le.mpr hlt)]

/-- Witness for C2: a trained one-pattern classifier with threshold `3/10`
and best similarity `1/10`. -/
theorem c2_witness :
    predict
      { trained := true, patterns := ["p"], tags := [⟨"a", "t"⟩],
        minConfidence := 3/10 }
      [(1:ℚ)/10] "a" none = ("unknown", listMax [(1:ℚ)/10]) :=
  c2_below_threshold_unknown _ _ "a" none rfl (by simp)
    (by norm_num [listMax])

/-- A whole conversation recorded turn by turn through `update_context`:
each tuple is (timestamp, user input, bot response, intent, application). -/
def recordTurns (maxLen : Nat) (ctx : UserContext)
    (turns : List (Nat × String × String × String × String)) : UserContext :=
  turns.foldl
    (fun c t => updateContextTurn maxLen c t.1 t.2.1 t.2.2.1 t.2.2.2.1 t.2.2.2.2)
    ctx

lemma length_dequeAppend (m : Nat) (h : List Turn) (t : Turn) :
    (dequeAppend m h t).length ≤ m := by
  simp only [dequeAppend, List.length_drop, List.length_append,
    List.length_singleton]
  omega

lemma recordTurns_length_le (maxLen : Nat)
    (turns : List (Nat × String × String × String × String)) :
    ∀ ctx : UserContext, ctx.history.length ≤ maxLen →
      (recordTurns maxLen ctx turns).history.length ≤ maxLen := by
  induction turns with
  | nil => intro ctx h; exact h
  | cons t ts ih =>
    intro ctx _
    exact ih _ (length_dequeAppend maxLen ctx.history _)

/-- Claim C3: starting from a fresh context, the conversation history never
exceeds the configured capacity after any number of recorded turns, and a
turn appended to a full history evicts exactly the oldest turn (FIFO). -/
theorem c3_history_bounded_fifo (maxLen : Nat) (uid : String) (now : Nat)
    (turns : List (Nat × String × String × String × String)) :
    (recordTurns maxLen (createNewContext uid now) turns).history.length ≤
      maxLen ∧
    (∀ (ctx : UserContext) (ts : Nat) (ui br it ap : String),
      ctx.history.length = maxLen → 0 < maxLen →
      (updateContextTurn maxLen ctx ts ui br it ap).history =
        ctx.history.drop 1 ++ [⟨ts, ui, br, it, ap⟩]) := by
  constructor
  · exact recordTurns_length_le maxLen turns _ (by simp [createNewContext])
  · intro ctx ts ui br it ap hfull hpos
    show dequeAppend maxLen ctx.history _ = _
    unfold dequeAppend
    rw [hfull, show maxLen + 1 - maxLen = 1 by omega,
      List.drop_append_of_le_length (by omega)]

/-- The full context used by the C3 witness. -/
def c3ctx : UserContext :=
  { createNewContext "u" 0 with
      history := [⟨0, "a", "b", "i1", "x"⟩, ⟨1, "c", "d", "i2", "x"⟩] }

/-- Witness for C3 with capacity 2 and three recorded turns. -/
theorem c3_witness :
    (recordTurns 2 (createNewContext "u" 0)
      [(1, "a", "b", "c", "d"), (2, "e", "f", "g", "h"),
       (3, "i", "j", "k", "l")]).history.length ≤ 2 ∧
    (updateContextTurn 2 c3ctx 9 "u" "b" "i" "a").history =
      c3ctx.history.drop 1 ++ [⟨9, "u", "b", "i", "a"⟩] :=
  ⟨(c3_history_bounded_fifo 2 "u" 0 _).1,
   (c3_history_bounded_fifo 2 "u" 0 []).2 c3ctx 9 "u" "b" "i" "a" rfl
     (by decide)⟩

/-- Claim C4 as stated is false: the input `"great but terrible"` contains
the positive word `"great"`, yet the stored last sentiment is
`"negative"` — the negative-word loop runs after the positive-word loop and
overwrites its result. -/
theorem c4_counterexample :
    positiveWords.any
      (fun w => strContains (lowerStr "great but terrible") w) = true ∧
    (updateContextVariables {} "great but terrible").lastSentiment =
      some "negative" ∧
    (some "negative" : Option String) ≠ some "positive" :=
  ⟨by decide, by decide, by decide⟩

/-- Claim C4 (amended): the positive-word scan runs first but the
negative-word scan runs afterwards and overwrites, so a turn containing a
negative word always stores `"negative"`; `"positive"` is stored exactly
when a positive word is present and no negative word is; with neither, the
stored last sentiment is unchanged. -/
theorem c4_sentiment_priority (cv : ContextVars) (input : String) :
    (negativeWords.any (fun w => strContains (lowerStr input) w) = true →
      (updateContextVariables cv input).lastSentiment = some "negative") ∧
    (positiveWords.any (fun w => strContains (lowerStr input) w) = true →
      negativeWords.any (fun w => strContains (lowerStr input) w) = false →
      (updateContextVariables cv input).lastSentiment = some "positive") ∧
    (positiveWords.any (fun w => strContains (lowerStr input) w) = false →
      negativeWords.any (fun w => strContains (lowerStr input) w) = false →
      (updateContextVariables cv input).lastSentiment =
        cv.lastSentiment) := by
  unfold updateContextVariables
  refine ⟨fun hneg => ?_, fun hpos hneg => ?_, fun hpos hneg => ?_⟩
  · simp [hneg]
  · simp [hpos, hneg]
  · simp only [hpos, hneg, Bool.false_eq_true, if_false]
    split <;> split <;> rfl

/-- Witness for C4 (amended): `"terrible"` alone stores `"negative"`. -/
theorem c4_witness :
    (updateContextVariables {} "terrible").lastSentiment = some "negative" :=
  (c4_sentiment_priority {} "terrible").1 (by decide)

/-- Claim C5 as stated is false: for the input `"my name is Sam!"` the
stored name is the verbatim token `"Sam!"` — the code never strips
punctuation from the extracted token. -/
theorem c5_counterexample :
    extractUserName none "my name is Sam!" = some "Sam!" ∧
    (some "Sam!" : Option String) ≠ some "Sam" :=
  ⟨by decide, by decide⟩

/-- Claim C5 (amended): name extraction tries the fixed phrase list in list
order against the lowercased input and takes the next whitespace-delimited
token after the first occurrence of the first phrase found, verbatim (no
punctuation stripping); the result is either the previous name or an
accepted token of length `> 1`; when no phrase occurs, the previous name is
kept; an accepted name overwrites any previously stored one
(demonstrated for `"my name is Sam!"`, which stores `"Sam!"` over any
previous value). -/
theorem c5_name_extraction (prev : Option String) (input : String) :
    (extractUserName prev input = prev ∨
      ∃ n, extractUserName prev input = some n ∧ 1 < n.length) ∧
    ((∀ p ∈ namePatterns, strContains (lowerStr input) p = false) →
      extractUserName prev input = prev) ∧
    (∀ other : Option String,
      extractUserName other "my name is Sam!" = some "Sam!") := by
  refine ⟨?_, ?_, fun other => rfl⟩
  · unfold extractUserName
    dsimp only
    cases namePatterns.find? (fun p => strContains (lowerStr input) p) with
    | none => exact Or.inl rfl
    | some p =>
      dsimp only
      cases (pySplit (pyStrip (String.mk
          (input.toList.drop ((strFind (lowerStr input) p).getD 0 +
            p.length))))).head? with
      | none => exact Or.inl rfl
      | some name =>
        dsimp only
        by_cases hlen : name.length > 1
        · rw [if_pos hlen]
          exact Or.inr ⟨name, rfl, hlen⟩
        · rw [if_neg hlen]
          exact Or.inl rfl
  · intro h
    unfold extractUserName
    dsimp only
    have hnone : namePatterns.find?
        (fun p => strContains (lowerStr input) p) = none := by
      rw [List.find?_eq_none]
      intro p hp
      simp [h p hp]
    rw [hnone]

/-- Witness for C5 (amended): an input with no name phrase keeps the
previously stored name. -/
theorem c5_witness :
    extractUserName (some "Kim") "hello" = some "Kim" :=
  (c5_name_extraction (some "Kim") "hello").2.1 (by decide)

lemma not_mem_key_cleanup (st : ManagerState) (uid : String) (now : Nat)
    (ctx : UserContext)
    (hnodup : (st.userContexts.map Prod.fst).Nodup)
    (hmem : (uid, ctx) ∈ st.userContexts)
    (hexp : now - ctx.lastActivity > st.sessionTimeout) :
    ∀ e ∈ (cleanupExpiredSessions st now).userContexts, e.1 ≠ uid := by
  intro e he heq
  have he' := List.mem_filter.mp he
  have hkeep := he'.2
  have heeq : e = (uid, ctx) :=
    List.inj_on_of_nodup_map hnodup he'.1 hmem (by simpa using heq)
  rw [heeq] at hkeep
  simp only [decide_eq_true_eq] at hkeep
  exact hkeep hexp

/-- Claim C6: a context idle strictly longer than the session timeout is
removed by the lazy sweep: it is absent after the sweep, `get_context`
returns a freshly created context for that user, and the user does not
appear among the active sessions. -/
theorem c6_expired_session_swept (st : ManagerState) (uid : String)
    (now : Nat) (ctx : UserContext)
    (hnodup : (st.userContexts.map Prod.fst).Nodup)
    (hmem : (uid, ctx) ∈ st.userContexts)
    (hexp : now - ctx.lastActivity > st.sessionTimeout) :
    lookupCtx (cleanupExpiredSessions st now).userContexts uid = none ∧
    (getContext st uid now).1 = createNewContext uid now ∧
    ∀ s ∈ getAllActiveSessions st now, s.userId ≠ uid := by
  have hkey := not_mem_key_cleanup st uid now ctx hnodup hmem hexp
  have hnone :
      lookupCtx (cleanupExpiredSessions st now).userContexts uid = none := by
    unfold lookupCtx
    rw [List.find?_eq_none.mpr]
    · rfl
    · intro e he
      simp [hkey e he]
  refine ⟨hnone, ?_, ?_⟩
  · simp only [getContext, hnone]
  · intro s hs
    rcases List.mem_map.mp hs with ⟨e, he, hse⟩
    rw [← hse]
    exact hkey e he

/-- The session store of the C6 witness: one user, last active at time 0. -/
def c6state : ManagerState :=
  { maxContextLength := 10, sessionTimeout := 3600
    userContexts := [("u", createNewContext "u" 0)] }

/-- Witness for C6: at time 5000 the session idle since time 0 is swept. -/
theorem c6_witness :
    lookupCtx (cleanupExpiredSessions c6state 5000).userContexts "u" =
      none ∧
    (getContext c6state "u" 5000).1 = createNewContext "u" 5000 ∧
    ∀ s ∈ getAllActiveSessions c6state 5000, s.userId ≠ "u" :=
  c6_expired_session_swept c6state "u" 5000 (createNewContext "u" 0)
    (by decide) (by decide) (by decide)

lemma collect_aux :
    ∀ (apps : List (String × AppData)) (ps : List String)
      (ts : List TagInfo),
      apps.foldl
        (fun acc e =>
          if e.2.patterns.length = e.2.tags.length then
            (acc.1 ++ e.2.patterns,
             acc.2 ++ e.2.tags.map (fun t => ⟨e.1, t⟩))
          else acc) (ps, ts) =
      (ps ++ ((apps.filter
          (fun e => e.2.patterns.length = e.2.tags.length)).map
          (fun e => e.2.patterns)).flatten,
       ts ++ ((apps.filter
          (fun e => e.2.patterns.length = e.2.tags.length)).map
          (fun e => e.2.tags.map (fun t => ⟨e.1, t⟩))).flatten)
  | [], ps, ts => by simp
  | e :: rest, ps, ts => by
    rw [List.foldl_cons]
    by_cases h : e.2.patterns.length = e.2.tags.length
    · rw [if_pos h, collect_aux rest, List.filter_cons]
      simp [h, List.append_assoc]
    · rw [if_neg h, collect_aux rest, List.filter_cons]
      simp [h]

lemma collectTrainingData_eq (apps : List (String × AppData)) :
    collectTrainingData apps =
      (((apps.filter
          (fun e => e.2.patterns.length = e.2.tags.length)).map
          (fun e => e.2.patterns)).flatten,
       ((apps.filter
          (fun e => e.2.patterns.length = e.2.tags.length)).map
          (fun e => e.2.tags.map (fun t => ⟨e.1, t⟩))).flatten) := by
  unfold collectTrainingData
  rw [collect_aux]
  simp

/-- Claim C7: training collects exactly the patterns and tags of the
applications whose two arrays agree in length (mismatched applications are
skipped, well-formed ones all load), and `train` fails precisely when no
patterns remain across all applications after the skipping. -/
theorem c7_train_skip_and_fail (st : ClassifierState)
    (apps : List (String × AppData)) :
    (collectTrainingData apps).1 =
      ((apps.filter
          (fun e => e.2.patterns.length = e.2.tags.length)).map
          (fun e => e.2.patterns)).flatten ∧
    (collectTrainingData apps).2 =
      ((apps.filter
          (fun e => e.2.patterns.length = e.2.tags.length)).map
          (fun e => e.2.tags.map (fun t => ⟨e.1, t⟩))).flatten ∧
    ((train st apps).2 = false ↔
      ((apps.filter
          (fun e => e.2.patterns.length = e.2.tags.length)).map
          (fun e => e.2.patterns)).flatten = []) := by
  have hc := collectTrainingData_eq apps
  refine ⟨by rw [hc], by rw [hc], ?_⟩
  unfold train
  by_cases h : (collectTrainingData apps).1.isEmpty
  · rw [if_pos h]
    have : (collectTrainingData apps).1 = [] := List.isEmpty_iff.mp h
    rw [hc] at this
    simpa using this
  · rw [if_neg h]
    have : ¬ (collectTrainingData apps).1 = [] :=
      fun he => h (by simp [he])
    rw [hc] at this
    simpa using this

lemma lookupApp_setApp (l : List (String × AppData)) (k : String)
    (v : AppData) (h : (lookupApp l k).isSome) :
    lookupApp (setApp l k v) k = some v := by
  induction l with
  | nil => simp [lookupApp] at h
  | cons e rest ih =>
    by_cases he : e.1 = k
    · simp [lookupApp, setApp, List.find?_cons, he]
    · have h' : (lookupApp rest k).isSome := by
        simpa [lookupApp, List.find?_cons, he] using h
      simpa [lookupApp, setApp, List.find?_cons, he] using ih h'

/-- Claim C8: when persisting the corpus fails, `add_example` reports
`false` to the caller, but the in-memory corpus still holds the newly
appended pattern, response and tag for the target application — the state
change is not rolled back. -/
theorem c8_add_example_not_rolled_back (data : List (String × AppData))
    (application pat resp tag : String) :
    (addExample data application pat resp tag false).2 = false ∧
    lookupApp (addExample data application pat resp tag false).1
        application =
      some
        { patterns :=
            ((lookupApp data application).getD emptyAppData).patterns ++
              [pat]
          responses :=
            ((lookupApp data application).getD emptyAppData).responses ++
              [resp]
          tags :=
            ((lookupApp data application).getD emptyAppData).tags ++
              [tag] } := by
  refine ⟨rfl, ?_⟩
  cases hl : lookupApp data application with
  | none =>
    have hfind : data.find? (fun e => e.1 = application) = none := by
      cases hf : data.find? (fun e => e.1 = application) with
      | none => rfl
      | some x =>
        unfold lookupApp at hl
        rw [hf] at hl
        simp at hl
    have hlook1 :
        lookupApp (data ++ [(application, emptyAppData)]) application =
          some emptyAppData := by
      unfold lookupApp
      rw [List.find?_append, hfind]
      simp
    simp only [addExample, hl, hlook1, Option.getD_some, Option.getD_none]
    rw [lookupApp_setApp _ _ _ (by rw [hlook1]; rfl)]
  | some a =>
    simp only [addExample, hl, Option.getD_some]
    rw [lookupApp_setApp _ _ _ (by rw [hl]; rfl)]

lemma toLower_of_space {c : Char} (h : pyIsSpace c = true) :
    c.toLower = c := by
  simp only [pyIsSpace, Bool.or_eq_true, decide_eq_true_eq] at h
  rcases h with ((((h | h) | h) | h) | h) | h <;> subst h <;> decide

lemma toLower_of_punct : ∀ c ∈ pythonPunctuation, c.toLower = c := by
  decide

lemma punct_not_kept : ∀ c ∈ pythonPunctuation, c ≠ '_' →
    (pyIsWordChar c || pyIsSpace c) = false := by
  decide

lemma isPunct_mem {c : Char} (h : isPunct c = true) :
    c ∈ pythonPunctuation := by
  simpa [isPunct, List.contains] using List.elem_iff.mp h

lemma splitWsAux_all_space (cs : List Char)
    (h : ∀ c ∈ cs, pyIsSpace c = true) : splitWsAux cs [] = [] := by
  induction cs with
  | nil => rfl
  | cons c t ih =>
    unfold splitWsAux
    rw [if_pos (h c (List.mem_cons_self c t)), if_pos rfl]
    exact ih fun c hc => h c (List.mem_cons_of_mem _ hc)

/-- Claim C9 as stated is false: the underscore is a punctuation character
(it belongs to `string.punctuation` in Python), yet the normalizer keeps it
because the regex `[^\w\s]` treats `_` as a word character: the input
`"_"` normalizes to `"_"`, not to the empty string. -/
theorem c9_counterexample :
    (∀ c ∈ ("_" : String).toList, isPunct c = true) ∧
    preprocessText "_" ≠ "" :=
  ⟨by decide, by decide⟩

/-- Claim C9 (amended): every input composed only of whitespace and
punctuation characters other than the underscore is normalized to the
empty string (the underscore, although in `string.punctuation`, counts as
a word character for the regex `[^\w\s]` and survives). -/
theorem c9_punct_ws_empty (s : String)
    (h : ∀ c ∈ s.toList,
      pyIsSpace c = true ∨ (isPunct c = true ∧ c ≠ '_')) :
    preprocessText s = "" := by
  unfold preprocessText
  by_cases hs : s = ""
  · rw [if_pos hs]
  · rw [if_neg hs]
    have hlist : (lowerStr s).toList = s.toList.map Char.toLower := rfl
    have hclean : ∀ c ∈ (lowerStr s).toList.filter
        (fun c => pyIsWordChar c || pyIsSpace c), pyIsSpace c = true := by
      intro c hc
      have hc' := List.mem_filter.mp hc
      rw [hlist] at hc'
      rcases List.mem_map.mp hc'.1 with ⟨c0, hc0, hlow⟩
      rcases h c0 hc0 with hsp | ⟨hpunct, hund⟩
      · rw [← hlow, toLower_of_space hsp]
        exact hsp
      · exfalso
        have hk := punct_not_kept c0 (isPunct_mem hpunct) hund
        rw [← hlow, toLower_of_punct c0 (isPunct_mem hpunct)] at hc'
        rw [hc'.2] at hk
        simp at hk
    dsimp only
    rw [splitWsAux_all_space _ hclean]
    rfl

/-- Witness for C9 (amended): `". !"` (dot, space, exclamation mark)
normalizes to the empty string. -/
theorem c9_witness : preprocessText ". !" = "" :=
  c9_punct_ws_empty ". !" (by decide)

lemma predict_tag_cases (st : ClassifierState) (sims : List ℚ)
    (app : String) (context : Option UserContext) :
    (predict st sims app context).1 = "unknown" ∨
    ∃ ti ∈ st.tags, (predict st sims app context).1 = ti.tag := by
  unfold predict
  by_cases htr : st.trained = false
  · rw [if_pos htr]
    exact Or.inl rfl
  · rw [if_neg htr]
    cases sims with
    | nil => exact Or.inl rfl
    | cons a l =>
      dsimp only
      by_cases hge : st.minConfidence ≤ (a :: l).getD (argmaxIdx (a :: l)) 0
      · rw [if_pos hge]
        cases hti : st.tags[argmaxIdx (a :: l)]? with
        | none => exact Or.inl rfl
        | some ti => exact Or.inr ⟨ti, List.getElem?_mem hti, rfl⟩
      · rw [if_neg hge]
        exact Or.inl rfl

lemma collect_tag_mem {apps : List (String × AppData)} {ti : TagInfo}
    (h : ti ∈ (collectTrainingData apps).2) :
    ti.tag ∈ ((apps.map (fun e => e.2.tags)).flatten) := by
  rw [collectTrainingData_eq] at h
  rcases List.mem_flatten.mp h with ⟨l, hl, hti⟩
  rcases List.mem_map.mp hl with ⟨e, he, hle⟩
  rcases List.mem_map.mp (hle ▸ hti) with ⟨t, ht, hte⟩
  refine List.mem_flatten.mpr ⟨e.2.tags, ?_, ?_⟩
  · exact List.mem_map.mpr ⟨e, (List.mem_filter.mp he).1, rfl⟩
  · rw [← hte]
    exact ht

/-- Claim C10: after a successful training run, any tag returned by
`predict` — for any similarity row, requested application and context — is
either the literal `"unknown"` or one of the tags supplied in the training
corpus; `predict` never fabricates a tag. -/
theorem c10_predict_tag_in_corpus (st st' : ClassifierState)
    (apps : List (String × AppData)) (sims : List ℚ) (app : String)
    (context : Option UserContext)
    (h : train st apps = (st', true)) :
    (predict st' sims app context).1 = "unknown" ∨
    (predict st' sims app context).1 ∈
      ((apps.map (fun e => e.2.tags)).flatten) := by
  have hst : st'.tags = (collectTrainingData apps).2 := by
    unfold train at h
    by_cases he : (collectTrainingData apps).1.isEmpty
    · rw [if_pos he] at h
      exact absurd (congrArg Prod.snd h) (by simp)
    · rw [if_neg he] at h
      have := congrArg Prod.fst h
      simp only at this
      rw [← this]
  rcases predict_tag_cases st' sims app context with hu | ⟨ti, hmem, heq⟩
  · exact Or.inl hu
  · rw [hst] at hmem
    exact Or.inr (heq ▸ collect_tag_mem hmem)

/-- The one-application corpus of the C10 witness. -/
def c10apps : List (String × AppData) :=
  [("a", { patterns := ["p"], responses := [], tags := ["t"] })]

/-- The classifier state produced by training on `c10apps`. -/
def c10st : ClassifierState :=
  { trained := true, patterns := ["p"], tags := [⟨"a", "t"⟩]
    minConfidence := 3/10 }

/-- Witness for C10: a classifier trained on one application with tag
`"t"`. -/
theorem c10_witness :
    (predict c10st [(1:ℚ)] "a" none).1 = "unknown" ∨
    (predict c10st [(1:ℚ)] "a" none).1 ∈
      ((c10apps.map (fun e => e.2.tags)).flatten) :=
  c10_predict_tag_in_corpus (initialClassifier (3/10)) c10st c10apps
    [(1:ℚ)] "a" none rfl

end Chatbot
